import Mathlib

/-!
Verification development for the identity-resolution, authorization and
GraphQL query-safety core of the patternfly-full-stack-fastapi-template
repository.

The frontend authentication utilities (`auth.ts`, bundled with
`src/frontend/src/components/ProtectedRoute.tsx`) are embedded directly from
their TypeScript source.  The backend components (AuthorizationGate,
QuerySafetyGuard, UserProvisioningService, BatchedRelationLoader,
RelationalIntegrityModel) are not part of the repository snapshot; they are
modelled from the specification, as marked on each definition.
-/

namespace FrontendAuth

/--
View of the middle (payload) segment of a stored bearer token, as the
frontend code observes it.  The source inspects the token string only through
`JSON.parse(atob(token.split(".")[1]))` followed by property access on the
result, so a token is embedded by the outcome of that decode:
* `object exp sub` — the segment decodes to a JSON object; we track the two
  claims the code reads: `exp` (a JWT NumericDate, modelled as an integer,
  `none` when the property is absent, i.e. `undefined` in JS) and `sub`
  (a string claim, `none` when absent).
* `nonObject` — the segment decodes to a JSON primitive other than `null`
  (number, string, boolean); property access on it yields `undefined`
  without throwing.
* `nullValue` — the segment decodes to JSON `null`; property access throws a
  `TypeError`, landing in the `catch` branch.
* `failure` — `atob` or `JSON.parse` throws (missing segment, bad base64,
  invalid JSON); the `catch` branch runs.
-/
inductive PayloadView where
  | object (exp : Option Int) (sub : Option String)
  | nonObject
  | nullValue
  | failure
deriving DecidableEq

/--
A stored bearer token.  `payload` is the decode outcome of the middle
segment.  `sigValid` records whether the third (signature) segment
cryptographically verifies against the issuer key — a property of the real
token string that the client code never reads (no code path touches
`token.split(".")[2]`), carried here so that statements about signature
handling can be expressed.
-/
structure Token where
  payload : PayloadView
  sigValid : Bool
deriving DecidableEq

/-- The `localStorage` slot holding the `access_token` key. -/
structure AuthStorage where
  accessToken : Option Token
deriving DecidableEq

/-- `getToken`: read the access token from localStorage (`null` when absent). -/
def getToken (s : AuthStorage) : Option Token :=
  s.accessToken

/-- `removeToken`: delete the access token from localStorage. -/
def removeToken (_s : AuthStorage) : AuthStorage :=
  ⟨none⟩

/-- `setToken`: store an access token in localStorage. -/
def setToken (t : Token) (_s : AuthStorage) : AuthStorage :=
  ⟨some t⟩

/--
The JS expression `payload.exp * 1000 < Date.now()` from `isAuthenticated`.
When `exp` is absent, `undefined * 1000` is `NaN` and every `<` comparison
with `NaN` is `false`; when present it is an ordinary numeric comparison.
-/
def jsExpired (exp : Option Int) (now : Int) : Bool :=
  match exp with
  | none => false
  | some e => decide (e * 1000 < now)

/--
`isAuthenticated` from the frontend auth utilities: returns whether a stored
token exists and its payload is not expired, removing the token from storage
on an expired or undecodable payload.  Returns the boolean result paired with
the storage state after the call (the source mutates localStorage in place).
-/
def isAuthenticated (now : Int) (s : AuthStorage) : Bool × AuthStorage :=
  match getToken s with
  | none => (false, s)
  | some t =>
    match t.payload with
    | .failure => (false, removeToken s)
    | .nullValue => (false, removeToken s)
    | .nonObject => (true, s)
    | .object exp _ =>
      if jsExpired exp now then (false, removeToken s) else (true, s)

/--
`getUserIdFromToken` from the frontend auth utilities: decodes the stored
payload of the token and returns `payload.sub || null`.  In JS the empty string is
falsy, so `"" || null` evaluates to `null`; any decode error is caught and
yields `null`.
-/
def getUserIdFromToken (s : AuthStorage) : Option String :=
  match getToken s with
  | none => none
  | some t =>
    match t.payload with
    | .failure => none
    | .nullValue => none
    | .nonObject => none
    | .object _ sub =>
      match sub with
      | none => none
      | some str => if str = "" then none else some str

end FrontendAuth

namespace AuthGate

/--
Modelled from the spec: the backend AuthorizationGate is not under `src/`
(the repository snapshot holds only the frontend, docs and tests).  A
request-scoped resolved identity, per spec section 3: `userId`, `email`,
`isAdmin`, `isActive` (the `authMethod` field plays no role in the
authorization decision and is omitted).
-/
structure Principal where
  userId : Nat
  email : String
  isAdmin : Bool
  isActive : Bool
deriving DecidableEq

/-- Modelled from the spec: a resource carrying an `ownerId` foreign key. -/
structure Resource where
  ownerId : Nat
deriving DecidableEq

/-- The authorization decision. -/
inductive Decision where
  | allow
  | deny
deriving DecidableEq

/--
Modelled from the spec: `canAccess(principal, resource)` of the backend
AuthorizationGate, absent from `src/`.  Per spec section 4.3, in this fixed
order: `isActive=false` is Deny, checked first; then `isAdmin=true` is Allow
for any resource; otherwise Allow iff `resource.ownerId == principal.userId`.
-/
def canAccess (p : Principal) (r : Resource) : Decision :=
  if p.isActive = false then .deny
  else if p.isAdmin = true then .allow
  else if r.ownerId = p.userId then .allow
  else .deny

end AuthGate

namespace QueryGuard

/--
Modelled from the spec: the backend QuerySafetyGuard is not under `src/`
(the docs in `src/unnamed/part_013` only state the limits: depth 10, tokens
2000).  A selection set of the parsed GraphQL query AST, encoded first-order
as a sequence of selections: a field with a nested selection set, an inline
fragment, or a named fragment spread, each carrying its sibling selections
in `rest`.
-/
inductive Sel where
  | nil
  | field (name : String) (sub : Sel) (rest : Sel)
  | inlineFragment (sub : Sel) (rest : Sel)
  | fragmentSpread (name : String) (rest : Sel)
deriving DecidableEq

/-- The named fragment definitions of the document: name to selection set. -/
def FragDefs := List (String × Sel)

/-- Look up the selection set of a named fragment (empty for an unknown name). -/
def lookupFrag (frags : FragDefs) (n : String) : Sel :=
  match frags.find? (fun p => p.1 = n) with
  | some p => p.2
  | none => .nil

/--
Modelled from the spec: maximum nesting depth of a selection set, with each
named fragment spread resolved by `onSpread`.  A field adds one level;
inline fragments and spreads are transparent (their selections count at the
enclosing level).
-/
def depthAux (onSpread : String → Nat) : Sel → Nat
  | .nil => 0
  | .field _ sub rest => max (1 + depthAux onSpread sub) (depthAux onSpread rest)
  | .inlineFragment sub rest => max (depthAux onSpread sub) (depthAux onSpread rest)
  | .fragmentSpread n rest => max (onSpread n) (depthAux onSpread rest)

/--
Modelled from the spec: fragment-aware maximum nesting depth — named
spreads are expanded into the count, each expansion consuming one unit of
`fuel`.  GraphQL validation forbids fragment cycles, so any fuel at least
the number of fragment definitions is exact.
-/
def depthSel (frags : FragDefs) : Nat → Sel → Nat
  | 0, s => depthAux (fun _ => 0) s
  | fuel + 1, s => depthAux (fun n => depthSel frags fuel (lookupFrag frags n)) s

/--
Modelled from the spec: total node/selection count (the "token" budget) with
each named fragment spread resolved by `onSpread`; every field, inline
fragment and spread node contributes one.
-/
def tokensAux (onSpread : String → Nat) : Sel → Nat
  | .nil => 0
  | .field _ sub rest => 1 + tokensAux onSpread sub + tokensAux onSpread rest
  | .inlineFragment sub rest => 1 + tokensAux onSpread sub + tokensAux onSpread rest
  | .fragmentSpread n rest => 1 + onSpread n + tokensAux onSpread rest

/-- Fragment-aware total node/selection count, spreads expanded via `fuel`. -/
def tokensSel (frags : FragDefs) : Nat → Sel → Nat
  | 0, s => tokensAux (fun _ => 0) s
  | fuel + 1, s => tokensAux (fun n => tokensSel frags fuel (lookupFrag frags n)) s

/--
Modelled from the spec: number of field resolvers a normally executed query
invokes — one per field node reached, spreads resolved by `onSpread`.
-/
def fieldsAux (onSpread : String → Nat) : Sel → Nat
  | .nil => 0
  | .field _ sub rest => 1 + fieldsAux onSpread sub + fieldsAux onSpread rest
  | .inlineFragment sub rest => fieldsAux onSpread sub + fieldsAux onSpread rest
  | .fragmentSpread n rest => onSpread n + fieldsAux onSpread rest

/-- Fragment-aware resolver count, spreads expanded via `fuel`. -/
def fieldsSel (frags : FragDefs) : Nat → Sel → Nat
  | 0, s => fieldsAux (fun _ => 0) s
  | fuel + 1, s => fieldsAux (fun n => fieldsSel frags fuel (lookupFrag frags n)) s

/-- A parsed GraphQL document: top-level selections plus fragment definitions. -/
structure Document where
  selections : Sel
  frags : FragDefs

/-- Fuel sufficient for any acyclic fragment graph of the document. -/
def Document.fuel (d : Document) : Nat :=
  d.frags.length + 1

/-- Fragment-aware maximum nesting depth of the whole document. -/
def queryDepth (d : Document) : Nat :=
  depthSel d.frags d.fuel d.selections

/-- Fragment-aware total node/selection count of the whole document. -/
def queryTokens (d : Document) : Nat :=
  tokensSel d.frags d.fuel d.selections

/-- The configured safety thresholds. -/
structure Limits where
  maxDepth : Nat
  maxTokens : Nat
deriving DecidableEq

/-- The documented defaults: depth 10, tokens 2000. -/
def defaultLimits : Limits :=
  ⟨10, 2000⟩

/-- Outcome of the static pre-execution analysis. -/
inductive CheckResult where
  | ok
  | queryTooComplex
deriving DecidableEq

/--
Modelled from the spec: `QuerySafetyGuard.check(parsedQueryAST, limits)` —
rejects when the fragment-aware depth exceeds `maxDepth` or the
fragment-aware token count exceeds `maxTokens`.
-/
def check (d : Document) (l : Limits) : CheckResult :=
  if queryDepth d > l.maxDepth ∨ queryTokens d > l.maxTokens then
    .queryTooComplex
  else .ok

/-- A top-level GraphQL error in the response envelope. -/
inductive GError where
  | queryTooComplex
deriving DecidableEq

/--
The `{data, errors}` response envelope, instrumented with how many field
resolvers ran and how many database accesses occurred while producing it.
-/
structure ExecResult where
  data : Option Nat
  errors : List GError
  resolverCalls : Nat
  dbAccesses : Nat
deriving DecidableEq

/--
Modelled from the spec: the GraphQL execution engine runs the guard before
any field resolver; a rejected query yields a single top-level
`QueryTooComplex` error with `data: null`, zero resolver invocations and
zero database accesses, while an accepted query runs one resolver (and one
database access) per reached field.
-/
def executeQuery (d : Document) (l : Limits) : ExecResult :=
  match check d l with
  | .queryTooComplex => ⟨none, [.queryTooComplex], 0, 0⟩
  | .ok =>
    let calls := fieldsSel d.frags d.fuel d.selections
    ⟨some calls, [], calls, calls⟩

/-- A linear chain of `n` nested fields (depth exactly `n`). -/
def chain : Nat → Sel
  | 0 => .nil
  | n + 1 => .field "f" (chain n) .nil

end QueryGuard

namespace Provisioning

/--
Modelled from the spec: the backend UserProvisioningService is not under
`src/`.  The identity claims extracted from the trusted forwarded headers
(the allow-list of spec section 4.1: email, username, preferred-username;
the docs in `src/unnamed/part_013` take the username from
`X-Forwarded-Preferred-Username` or `X-Forwarded-User` and the email from
`X-Forwarded-Email`).
-/
structure Claims where
  email : String
  username : String
deriving DecidableEq

/-- A stored User row, restricted to the fields provisioning touches. -/
structure UserRow where
  email : String
  username : String
  isAdmin : Bool
  isActive : Bool
  lastLogin : Nat
deriving DecidableEq

/--
Modelled from the spec: the row auto-created on a first login — active,
never admin (`admin: false` per the docs; role elevation only via an
explicit administrative action), `lastLogin` set to the current time.
-/
def newUserFromClaims (c : Claims) (now : Nat) : UserRow :=
  ⟨c.email, c.username, false, true, now⟩

/-- Update only the `lastLogin` timestamp of an existing row. -/
def touch (u : UserRow) (now : Nat) : UserRow :=
  { u with lastLogin := now }

/--
Modelled from the spec: match a claimed identity against the store, by email
first, then by username.
-/
def findByIdentity (c : Claims) (store : List UserRow) : Option UserRow :=
  match store.find? (fun u => u.email = c.email) with
  | some u => some u
  | none => store.find? (fun u => u.username = c.username)

/--
Modelled from the spec: `ensureUser(claims)` in its sequential (race-free)
form — when the identity has an existing row, update its `lastLogin` and
return it; otherwise insert a fresh auto-created row.  Returns the resolved
row and the store after the call.
-/
def ensureUser (c : Claims) (now : Nat) (store : List UserRow) :
    UserRow × List UserRow :=
  match findByIdentity c store with
  | some u =>
    let u' := touch u now
    (u', store.map (fun v => if v = u then u' else v))
  | none =>
    let u := newUserFromClaims c now
    (u, u :: store)

/--
Progress of one first-login request through `ensureUser` for the single
contended identity: before its lookup, between lookup and insert, or done
holding the resolved row.
-/
inductive ReqPhase where
  | start
  | inserting
  | finished (u : UserRow)
deriving DecidableEq

/--
Modelled from the spec: the shared state of N concurrent first-login
requests for one previously-unseen external identity.  `row` is the stored
row for that identity (the unique constraint admits at most one), `created`
counts successful INSERTs, `conflicts` counts unique-constraint violations
absorbed by the re-read, and `reqs` holds the phase of each request.
-/
structure MachineState where
  row : Option UserRow
  created : Nat
  conflicts : Nat
  reqs : List ReqPhase
deriving DecidableEq

/--
Modelled from the spec: one atomic database action of request `i`.  A
request at `start` performs the lookup: if the row already exists it updates
`lastLogin` and finishes, otherwise it proceeds to the insert.  A request at
`inserting` attempts the INSERT: if a concurrent request created the row in
the meantime, the unique constraint fires and the request re-reads the
now-existing row instead of failing; otherwise the INSERT succeeds.
-/
def step (c : Claims) (now : Nat) (s : MachineState) (i : Nat) : MachineState :=
  match s.reqs.get? i with
  | none => s
  | some .start =>
    match s.row with
    | some u =>
      let u' := touch u now
      { s with row := some u', reqs := s.reqs.set i (.finished u') }
    | none => { s with reqs := s.reqs.set i .inserting }
  | some .inserting =>
    match s.row with
    | some u =>
      { s with conflicts := s.conflicts + 1, reqs := s.reqs.set i (.finished u) }
    | none =>
      let u := newUserFromClaims c now
      { s with row := some u, created := s.created + 1,
               reqs := s.reqs.set i (.finished u) }
  | some (.finished _) => s

/-- Run an arbitrary interleaving: the schedule lists which request acts next. -/
def run (c : Claims) (now : Nat) : List Nat → MachineState → MachineState
  | [], s => s
  | i :: rest, s => run c now rest (step c now s i)

/-- N pending first-login requests against an identity with no stored row. -/
def initState (n : Nat) : MachineState :=
  ⟨none, 0, 0, List.replicate n .start⟩

/-- Whether a request has completed. -/
def isFinished : ReqPhase → Bool
  | .finished _ => true
  | _ => false

/-- Whether every request of the run has completed. -/
def allFinished (s : MachineState) : Bool :=
  s.reqs.all isFinished

/--
The machine invariant: while no row is stored, no INSERT has succeeded and
no request has finished; once the row exists, exactly one INSERT succeeded.
-/
def MachineInv (s : MachineState) : Prop :=
  match s.row with
  | none => s.created = 0 ∧ ∀ p ∈ s.reqs, isFinished p = false
  | some _ => s.created = 1

end Provisioning

namespace Relational

/-- An Item row: primary key and the `ownerId` foreign key to User. -/
structure ItemRow where
  id : Nat
  ownerId : Nat
deriving DecidableEq

/-- A Tag row. -/
structure TagRow where
  id : Nat
deriving DecidableEq

/-- An ItemTag join row: the many-to-many link between Item and Tag. -/
structure ItemTagRow where
  itemId : Nat
  tagId : Nat
deriving DecidableEq

/-- The durable store: User ids, Item, Tag and ItemTag rows. -/
structure DB where
  users : List Nat
  items : List ItemRow
  tags : List TagRow
  itemTags : List ItemTagRow
deriving DecidableEq

/--
Modelled from the spec: deleting an Item.  Per the cascade contract
(`src/docs/DATABASE.md`: `ondelete="CASCADE"` on the foreign
keys of the join table, no cascade on the many-to-many relationship itself), the Item row and
its ItemTag join rows are removed; Tag rows are untouched.
-/
def deleteItem (db : DB) (iid : Nat) : DB :=
  { db with
    items := db.items.filter (fun i => i.id ≠ iid),
    itemTags := db.itemTags.filter (fun it => it.itemId ≠ iid) }

/--
Modelled from the spec: deleting a User.  Per the cascade contract
(`cascade="all, delete-orphan"` on User→Item in `src/docs/DATABASE.md`), the
transaction removes the User, every Item it owns, and — through the
foreign-key cascade of the join table — the ItemTag rows of those Items; Tag rows are
untouched.
-/
def deleteUser (db : DB) (uid : Nat) : DB :=
  let deadItems := db.items.filter (fun i => i.ownerId = uid)
  { db with
    users := db.users.filter (fun u => u ≠ uid),
    items := db.items.filter (fun i => i.ownerId ≠ uid),
    itemTags := db.itemTags.filter
      (fun it => deadItems.all (fun d => d.id ≠ it.itemId)) }

end Relational

namespace Loader

/--
Modelled from the spec: the per-request state of a BatchedRelationLoader for
one relation.  `cache` maps resolved keys to their value, where a cached
`none` is the explicit not-found value; `pending` collects keys requested
during the synchronous portion; `fetches` counts batched database fetches
issued by this loader.
-/
structure LoaderState where
  cache : List (Nat × Option Nat)
  pending : List Nat
  fetches : Nat
deriving DecidableEq

/-- The cached resolution of a key (`none` when the key is not yet resolved). -/
def cached (s : LoaderState) (k : Nat) : Option (Option Nat) :=
  match s.cache.find? (fun p => p.1 = k) with
  | some p => some p.2
  | none => none

/--
Modelled from the spec: `load(key)` during the synchronous portion — a key
already resolved in this request is served from the per-request cache and
enqueues nothing; an unresolved key joins the pending batch.
-/
def load (s : LoaderState) (k : Nat) : LoaderState :=
  match cached s k with
  | some _ => s
  | none => { s with pending := s.pending ++ [k] }

/-- Issue every `load` of one synchronous portion, in order. -/
def loadAll (s : LoaderState) (ks : List Nat) : LoaderState :=
  ks.foldl load s

/--
Modelled from the spec: the deferred flush that runs once the synchronous
portion yields — one batched fetch (`WHERE id IN (keys)`) over the
deduplicated pending keys, distributing each result (or the explicit
not-found value) into the cache; no fetch at all when nothing is pending.
-/
def dispatch (db : Nat → Option Nat) (s : LoaderState) : LoaderState :=
  match s.pending with
  | [] => s
  | _ =>
    { cache := s.cache ++ s.pending.dedup.map (fun k => (k, db k)),
      pending := [],
      fetches := s.fetches + 1 }

/-- A fresh loader at the start of a request: empty cache, nothing pending. -/
def freshLoader : LoaderState :=
  ⟨[], [], 0⟩

end Loader

open FrontendAuth AuthGate QueryGuard Provisioning Relational Loader

/--
C1: the AuthorizationGate decision is computed in this fixed order: an
inactive principal is denied regardless of ownership and admin status;
otherwise an admin is allowed for any resource; otherwise access is allowed
iff the ownerId of the resource equals the userId of the principal.
-/
theorem c1_authorization_gate_order (p : Principal) (r : Resource) :
    (p.isActive = false → canAccess p r = .deny)
    ∧ (p.isActive = true → p.isAdmin = true → canAccess p r = .allow)
    ∧ (p.isActive = true → p.isAdmin = false →
        (canAccess p r = .allow ↔ r.ownerId = p.userId)) := by
  obtain ⟨uid, em, adm, act⟩ := p
  refine ⟨fun h1 => ?_, fun h1 h2 => ?_, fun h1 h2 => ?_⟩ <;>
    subst_vars <;>
    by_cases h : r.ownerId = uid <;>
    simp [canAccess, h]

/--
C1 witness: an inactive admin who owns the resource is still denied.
-/
theorem c1_authorization_gate_order_witness :
    canAccess ⟨1, "a@b.c", true, false⟩ ⟨1⟩ = .deny :=
  (c1_authorization_gate_order ⟨1, "a@b.c", true, false⟩ ⟨1⟩).1 rfl

/--
C2 counterexample: the claim states that a bearer token with a bad
(non-verifying) signature resolves to Unauthenticated.  The client-side
resolution (`isAuthenticated` in the frontend auth utilities) never reads
the signature segment: a stored token whose signature does not verify but
whose payload is a well-formed JSON object with an unexpired exp claim is
resolved as authenticated (`true`), falsifying the claim as stated.
-/
theorem c2_bad_signature_accepted :
    (⟨PayloadView.object (some 4102444800) (some "user123"), false⟩ :
        Token).sigValid = false
    ∧ (isAuthenticated 0
        ⟨some ⟨PayloadView.object (some 4102444800) (some "user123"), false⟩⟩).fst
        = true :=
  ⟨rfl, rfl⟩

/--
C2 (amended): for every stored token that is expired or whose payload is
undecodable, client-side resolution returns Unauthenticated (`false`) and
removes the token, and it never raises an unhandled exception (the decode
error lands in the catch branch; the embedding is a total function); but the
signature is never verified — the result is independent of whether the
signature verifies, so a token with an invalid signature and a well-formed,
unexpired payload is accepted.
-/
theorem c2_expired_or_malformed_unauthenticated (now : Int) (t : Token) :
    (t.payload = .failure → isAuthenticated now ⟨some t⟩ = (false, ⟨none⟩))
    ∧ (∀ e sub, t.payload = .object (some e) sub → e * 1000 < now →
        isAuthenticated now ⟨some t⟩ = (false, ⟨none⟩))
    ∧ (∀ b, (isAuthenticated now ⟨some ⟨t.payload, b⟩⟩).fst
        = (isAuthenticated now ⟨some t⟩).fst) := by
  obtain ⟨pl, sv⟩ := t
  refine ⟨fun h => ?_, fun e sub h hlt => ?_, fun b => ?_⟩
  · subst h; rfl
  · subst h
    simp only [isAuthenticated, getToken, removeToken, jsExpired]
    rw [if_pos (by exact decide_eq_true hlt)]
  · cases pl with
    | object e s =>
      simp only [isAuthenticated, getToken]
      cases hje : jsExpired e now <;> simp [hje]
    | nonObject => rfl
    | nullValue => rfl
    | failure => rfl

/--
C2 amended witness: a stored token with exp 0 is expired at now = 1, so
resolution returns false and clears the storage.
-/
theorem c2_expired_or_malformed_unauthenticated_witness :
    isAuthenticated 1 ⟨some ⟨PayloadView.object (some 0) (some "u"), true⟩⟩
      = (false, ⟨none⟩) :=
  (c2_expired_or_malformed_unauthenticated 1
      ⟨PayloadView.object (some 0) (some "u"), true⟩).2.1
    0 (some "u") rfl (by decide)

/--
C3 counterexample: the claim states that for a valid, non-expired token the
extracted user id equals the sub claim of the token, and is null only when the
token has no sub claim.  A token whose sub claim is the empty string has a
sub claim, yet getUserIdFromToken returns null: the source returns
`payload.sub || null` and the empty string is falsy in JS.
-/
theorem c3_empty_sub_yields_null :
    (⟨PayloadView.object (some 4102444800) (some ""), true⟩ : Token).payload
      = .object (some 4102444800) (some "")
    ∧ getUserIdFromToken
        ⟨some ⟨PayloadView.object (some 4102444800) (some ""), true⟩⟩ = none
    ∧ (none : Option String) ≠ some "" :=
  ⟨rfl, rfl, by decide⟩

/--
C3 (amended): for every valid, non-expired signed bearer token whose payload
decodes to a JSON object, the extracted user id equals the sub claim
whenever that claim is a non-empty string, and is null when the sub claim is
absent or empty.
-/
theorem c3_userid_equals_subject (now e : Int) (sv : Bool) (sub : Option String)
    (hexp : ¬ e * 1000 < now) (hsv : sv = true) :
    (∀ str, sub = some str → str ≠ "" →
        getUserIdFromToken ⟨some ⟨PayloadView.object (some e) sub, sv⟩⟩ = some str)
    ∧ (sub = none ∨ sub = some "" →
        getUserIdFromToken ⟨some ⟨PayloadView.object (some e) sub, sv⟩⟩ = none) := by
  refine ⟨fun str hs hne => ?_, fun h => ?_⟩
  · subst hs
    simp [getUserIdFromToken, getToken, hne]
  · rcases h with h | h <;> subst h <;> rfl

/--
C3 amended witness: a valid token with sub "user-123-456" yields that id.
-/
theorem c3_userid_equals_subject_witness :
    getUserIdFromToken
      ⟨some ⟨PayloadView.object (some 4102444800) (some "user-123-456"), true⟩⟩
      = some "user-123-456" :=
  (c3_userid_equals_subject 0 4102444800 true (some "user-123-456")
      (by decide) rfl).1 "user-123-456" rfl (by decide)

/--
C4: whenever the fragment-aware maximum nesting depth exceeds the configured
maxDepth (default 10) or the fragment-aware node/selection count exceeds the
configured maxTokens (default 2000), QuerySafetyGuard.check returns
QueryTooComplex and the response is a single top-level QueryTooComplex error
with no partial data.
-/
theorem c4_guard_rejects_excess (d : Document) (l : Limits)
    (h : queryDepth d > l.maxDepth ∨ queryTokens d > l.maxTokens) :
    check d l = .queryTooComplex
    ∧ executeQuery d l = ⟨none, [.queryTooComplex], 0, 0⟩
    ∧ (executeQuery d l).errors = [.queryTooComplex]
    ∧ (executeQuery d l).data = none
    ∧ defaultLimits = ⟨10, 2000⟩ := by
  have hc : check d l = .queryTooComplex := by
    unfold check
    rw [if_pos h]
  refine ⟨hc, ?_, ?_, ?_, rfl⟩ <;> simp [executeQuery, hc]

/--
C4 witness: a query whose excess depth (11 against the default 10) is
reachable only through a named fragment spread is still counted and
rejected with the single top-level error.
-/
theorem c4_guard_rejects_excess_witness :
    check ⟨Sel.fragmentSpread "deep" .nil, [("deep", chain 11)]⟩ defaultLimits
      = .queryTooComplex
    ∧ executeQuery ⟨Sel.fragmentSpread "deep" .nil, [("deep", chain 11)]⟩
        defaultLimits = ⟨none, [.queryTooComplex], 0, 0⟩ :=
  have h := c4_guard_rejects_excess
    ⟨Sel.fragmentSpread "deep" .nil, [("deep", chain 11)]⟩ defaultLimits
    (Or.inl (by decide))
  ⟨h.1, h.2.1⟩

/--
C5: whenever QuerySafetyGuard rejects a query, zero field resolvers are
invoked and zero database accesses occur for that request; concretely, the
depth-11 linear query against maxDepth 10 is rejected with a resolver call
count of 0, while the equivalent depth-9 query executes normally, producing
data with one resolver call per field.
-/
theorem c5_rejection_precedes_resolvers (d : Document) (l : Limits)
    (h : check d l = .queryTooComplex) :
    ((executeQuery d l).resolverCalls = 0
      ∧ (executeQuery d l).dbAccesses = 0
      ∧ (executeQuery d l).data = none)
    ∧ (check ⟨chain 11, []⟩ ⟨10, 2000⟩ = .queryTooComplex
      ∧ (executeQuery ⟨chain 11, []⟩ ⟨10, 2000⟩).resolverCalls = 0
      ∧ (executeQuery ⟨chain 11, []⟩ ⟨10, 2000⟩).dbAccesses = 0)
    ∧ (check ⟨chain 9, []⟩ ⟨10, 2000⟩ = .ok
      ∧ (executeQuery ⟨chain 9, []⟩ ⟨10, 2000⟩).data = some 9
      ∧ (executeQuery ⟨chain 9, []⟩ ⟨10, 2000⟩).resolverCalls = 9) := by
  refine ⟨by simp [executeQuery, h], by decide, by decide⟩

/--
C5 witness: instantiated at the depth-11 document rejected by the default
depth limit.
-/
theorem c5_rejection_precedes_resolvers_witness :
    (executeQuery ⟨chain 11, []⟩ ⟨10, 2000⟩).resolverCalls = 0
    ∧ (executeQuery ⟨chain 11, []⟩ ⟨10, 2000⟩).dbAccesses = 0 :=
  have h := c5_rejection_precedes_resolvers ⟨chain 11, []⟩ ⟨10, 2000⟩
    (by decide)
  ⟨h.1.1, h.1.2.1⟩

/--
C10: for every stored token whose payload decodes to a JSON object, the
client-side isAuthenticated returns true iff the JS comparison
`payload.exp * 1000 < Date.now()` is false — in particular a payload with no
exp claim is treated as authenticated (the comparison is NaN-false) — the
result is independent of the signature segment; and whenever isAuthenticated
returns false while a token is stored, the token is removed so a subsequent
getToken returns null.
-/
theorem c10_is_authenticated_exp_only (now : Int) (st : AuthStorage)
    (exp : Option Int) (sub : Option String) (sv : Bool)
    (h : st.accessToken = some ⟨.object exp sub, sv⟩) :
    ((isAuthenticated now st).fst = true ↔ jsExpired exp now = false)
    ∧ (exp = none → (isAuthenticated now st).fst = true)
    ∧ (∀ b, (isAuthenticated now ⟨some ⟨.object exp sub, b⟩⟩).fst
        = (isAuthenticated now st).fst)
    ∧ (∀ (now' : Int) (st' : AuthStorage),
        st'.accessToken.isSome = true →
        (isAuthenticated now' st').fst = false →
        getToken (isAuthenticated now' st').snd = none) := by
  obtain ⟨tok⟩ := st
  subst h
  refine ⟨?_, fun hnone => ?_, fun b => ?_, fun now' st' hsome hfalse => ?_⟩
  · simp only [isAuthenticated, getToken]
    cases hje : jsExpired exp now <;> simp [hje]
  · subst hnone
    simp [isAuthenticated, getToken, jsExpired]
  · simp only [isAuthenticated, getToken]
    cases hje : jsExpired exp now <;> simp [hje]
  · obtain ⟨acc⟩ := st'
    match acc with
    | none => simp at hsome
    | some ⟨pl, sv'⟩ =>
      cases pl with
      | object e s =>
        revert hfalse
        simp only [isAuthenticated, getToken]
        cases hje : jsExpired e now' <;> simp [removeToken]
      | nonObject => simp [isAuthenticated, getToken] at hfalse
      | nullValue => rfl
      | failure => rfl

/--
C10 witness: a stored token with no exp claim and an arbitrary signature is
treated as authenticated.
-/
theorem c10_is_authenticated_exp_only_witness :
    (isAuthenticated 0 ⟨some ⟨PayloadView.object none (some "u"), false⟩⟩).fst
      = true :=
  (c10_is_authenticated_exp_only 0
      ⟨some ⟨PayloadView.object none (some "u"), false⟩⟩
      none (some "u") false rfl).2.1 rfl

/-- Each scheduler step preserves the number of requests. -/
theorem prov_step_reqs_length (c : Claims) (now : Nat) (s : MachineState)
    (i : Nat) : (step c now s i).reqs.length = s.reqs.length := by
  obtain ⟨row, cr, cf, reqs⟩ := s
  unfold step
  cases hg : reqs.get? i with
  | none => rfl
  | some ph => cases ph <;> cases row <;> simp [List.length_set]

/-- A whole run preserves the number of requests. -/
theorem prov_run_reqs_length (c : Claims) (now : Nat) (sched : List Nat) :
    ∀ s : MachineState, (run c now sched s).reqs.length = s.reqs.length := by
  induction sched with
  | nil => intro s; rfl
  | cons i rest ih =>
    intro s
    show (run c now rest (step c now s i)).reqs.length = _
    rw [ih, prov_step_reqs_length]

/-- Each scheduler step preserves the machine invariant. -/
theorem prov_inv_step (c : Claims) (now : Nat) (s : MachineState) (i : Nat)
    (h : MachineInv s) : MachineInv (step c now s i) := by
  obtain ⟨row, cr, cf, reqs⟩ := s
  cases row with
  | some u =>
    have hc : cr = 1 := h
    unfold step
    cases hg : reqs.get? i with
    | none => exact hc
    | some ph => cases ph <;> exact hc
  | none =>
    obtain ⟨hc, hfin⟩ := h
    unfold step
    cases hg : reqs.get? i with
    | none => exact ⟨hc, hfin⟩
    | some ph =>
      cases ph with
      | start =>
        refine ⟨hc, fun p hp => ?_⟩
        rcases List.mem_or_eq_of_mem_set hp with h' | h'
        · exact hfin p h'
        · rw [h']; rfl
      | inserting =>
        show cr + 1 = 1
        rw [show cr = 0 from hc]
      | finished u' => exact ⟨hc, hfin⟩

/-- A whole run preserves the machine invariant. -/
theorem prov_inv_run (c : Claims) (now : Nat) (sched : List Nat) :
    ∀ s : MachineState, MachineInv s → MachineInv (run c now sched s) := by
  induction sched with
  | nil => intro s h; exact h
  | cons i rest ih =>
    intro s h
    exact ih (step c now s i) (prov_inv_step c now s i h)

/--
C6: for any number N ≥ 1 of concurrent first-login requests for one
previously-unseen external identity and any interleaving of their lookup and
insert steps, a completed run stores exactly one User row (exactly one
INSERT ever succeeds); every request finishes holding a User row — the
unique-constraint violation is absorbed by the re-read and never surfaced.
-/
theorem c6_concurrent_first_login_one_row (c : Claims) (now n : Nat)
    (sched : List Nat) (hn : 0 < n)
    (hfin : allFinished (run c now sched (initState n)) = true) :
    (run c now sched (initState n)).created = 1
    ∧ (run c now sched (initState n)).row.isSome = true
    ∧ ∀ p ∈ (run c now sched (initState n)).reqs, ∃ u,
        p = ReqPhase.finished u := by
  have hInv0 : MachineInv (initState n) := by
    refine ⟨rfl, fun p hp => ?_⟩
    rw [List.eq_of_mem_replicate hp]
    rfl
  have hInv : MachineInv (run c now sched (initState n)) :=
    prov_inv_run c now sched (initState n) hInv0
  have hlen : (run c now sched (initState n)).reqs.length = n := by
    rw [prov_run_reqs_length]
    simp [initState]
  have hall : ∀ p ∈ (run c now sched (initState n)).reqs,
      isFinished p = true := by
    rw [allFinished, List.all_eq_true] at hfin
    exact hfin
  have hfin' : ∀ p ∈ (run c now sched (initState n)).reqs, ∃ u,
      p = ReqPhase.finished u := by
    intro p hp
    cases p with
    | finished u => exact ⟨u, rfl⟩
    | start => simpa [isFinished] using hall _ hp
    | inserting => simpa [isFinished] using hall _ hp
  have hne : (run c now sched (initState n)).reqs ≠ [] := by
    intro hnil
    rw [hnil, List.length_nil] at hlen
    omega
  obtain ⟨p, hp⟩ := List.exists_mem_of_ne_nil _ hne
  cases hrow : (run c now sched (initState n)).row with
  | none =>
    exfalso
    unfold MachineInv at hInv
    rw [hrow] at hInv
    have h1 := hInv.2 p hp
    have h2 := hall p hp
    rw [h1] at h2
    exact Bool.false_ne_true h2
  | some u =>
    unfold MachineInv at hInv
    rw [hrow] at hInv
    exact ⟨hInv, rfl, hfin'⟩

set_option maxRecDepth 20000 in
/--
C6 witness: 50 concurrent first logins, scheduled so that requests 0 and 1
race (both look up before either inserts, so request 1 hits the unique
constraint and re-reads) while the rest look up afterwards, create exactly
one row.
-/
theorem c6_concurrent_first_login_one_row_witness :
    (run ⟨"e@x", "u"⟩ 7 ([0, 1, 0, 1] ++ (List.range 50).drop 2)
        (initState 50)).created = 1
    ∧ (run ⟨"e@x", "u"⟩ 7 ([0, 1, 0, 1] ++ (List.range 50).drop 2)
        (initState 50)).row.isSome = true :=
  have h := c6_concurrent_first_login_one_row ⟨"e@x", "u"⟩ 7 50
    ([0, 1, 0, 1] ++ (List.range 50).drop 2) (by decide) (by decide)
  ⟨h.1, h.2.1⟩

/-- Updating only `lastLogin` of the matched row preserves every isAdmin flag. -/
theorem prov_map_isAdmin_touch (u : UserRow) (now : Nat) :
    ∀ store : List UserRow,
      (store.map (fun v => if v = u then touch u now else v)).map
          (fun v => v.isAdmin)
        = store.map (fun v => v.isAdmin) := by
  intro store
  induction store with
  | nil => rfl
  | cons a l ih =>
    simp only [List.map_cons, ih, List.cons.injEq, and_true]
    by_cases h : a = u <;> simp [h, touch]

/--
C7: ensureUser never sets or changes isAdmin from header-derived claims —
for every claim value, a newly auto-created user has isAdmin = false, and
when the identity matches an existing row, the isAdmin flag of the returned
row and of every stored row is unchanged.
-/
theorem c7_ensure_user_never_elevates (c : Claims) (now : Nat)
    (store : List UserRow) :
    (findByIdentity c store = none →
      (ensureUser c now store).1.isAdmin = false
      ∧ (ensureUser c now store).2 = newUserFromClaims c now :: store
      ∧ (newUserFromClaims c now).isAdmin = false)
    ∧ (∀ u, findByIdentity c store = some u →
      (ensureUser c now store).1.isAdmin = u.isAdmin
      ∧ (ensureUser c now store).2.map (fun v => v.isAdmin)
          = store.map (fun v => v.isAdmin)) := by
  constructor
  · intro h
    refine ⟨?_, ?_, rfl⟩ <;> simp [ensureUser, h, newUserFromClaims]
  · intro u h
    constructor
    · simp [ensureUser, h, touch]
    · simp only [ensureUser, h]
      exact prov_map_isAdmin_touch u now store

/--
C7 witness: provisioning an identity that matches a stored admin row leaves
its isAdmin flag exactly as it was, and a fresh auto-created row is never
admin.
-/
theorem c7_ensure_user_never_elevates_witness :
    (ensureUser ⟨"a@x", "other"⟩ 9
        [⟨"a@x", "adminu", true, true, 0⟩]).1.isAdmin = true
    ∧ (ensureUser ⟨"new@x", "newu"⟩ 9 []).1.isAdmin = false :=
  ⟨((c7_ensure_user_never_elevates ⟨"a@x", "other"⟩ 9
      [⟨"a@x", "adminu", true, true, 0⟩]).2
      ⟨"a@x", "adminu", true, true, 0⟩ (by decide)).1,
   ((c7_ensure_user_never_elevates ⟨"new@x", "newu"⟩ 9 []).1 rfl).1⟩

/--
C8: deleting a User transactionally deletes every Item whose ownerId is that
user (and nothing else), deleting an Item removes exactly its ItemTag join
rows, and Tag rows are never cascade-deleted by any Item or User deletion.
-/
theorem c8_cascade_rules (db : DB) (uid iid : Nat) :
    (∀ i ∈ (deleteUser db uid).items, i.ownerId ≠ uid)
    ∧ (∀ i ∈ db.items, i.ownerId ≠ uid → i ∈ (deleteUser db uid).items)
    ∧ (deleteUser db uid).tags = db.tags
    ∧ (∀ it ∈ (deleteItem db iid).itemTags, it.itemId ≠ iid)
    ∧ (∀ it ∈ (deleteItem db iid).itemTags, it ∈ db.itemTags)
    ∧ (∀ it ∈ db.itemTags, it.itemId ≠ iid → it ∈ (deleteItem db iid).itemTags)
    ∧ (deleteItem db iid).tags = db.tags := by
  refine ⟨?_, ?_, rfl, ?_, ?_, ?_, rfl⟩
  · intro i hi
    simp [deleteUser, List.mem_filter] at hi
    exact hi.2
  · intro i hi h
    simp [deleteUser, List.mem_filter]
    exact ⟨hi, h⟩
  · intro it hit
    simp [deleteItem, List.mem_filter] at hit
    exact hit.2
  · intro it hit
    simp [deleteItem, List.mem_filter] at hit
    exact hit.1
  · intro it hit h
    simp [deleteItem, List.mem_filter]
    exact ⟨hit, h⟩

/--
C8 witness: in a store with two users owning one item each, both tagged with
tag 7, deleting user 1 keeps the item of user 2, and deleting item 10 keeps every
tag row.
-/
theorem c8_cascade_rules_witness :
    (⟨11, 2⟩ : ItemRow)
      ∈ (deleteUser ⟨[1, 2], [⟨10, 1⟩, ⟨11, 2⟩], [⟨7⟩], [⟨10, 7⟩, ⟨11, 7⟩]⟩
          1).items
    ∧ (deleteItem ⟨[1, 2], [⟨10, 1⟩, ⟨11, 2⟩], [⟨7⟩], [⟨10, 7⟩, ⟨11, 7⟩]⟩
        10).tags = [⟨7⟩] :=
  ⟨(c8_cascade_rules ⟨[1, 2], [⟨10, 1⟩, ⟨11, 2⟩], [⟨7⟩], [⟨10, 7⟩, ⟨11, 7⟩]⟩
      1 10).2.1 ⟨11, 2⟩ (by decide) (by decide),
   (c8_cascade_rules ⟨[1, 2], [⟨10, 1⟩, ⟨11, 2⟩], [⟨7⟩], [⟨10, 7⟩, ⟨11, 7⟩]⟩
      1 10).2.2.2.2.2.2⟩

/-- Loads from an empty cache enqueue every requested key, in order. -/
theorem loader_loadAll_empty_cache (ks : List Nat) :
    ∀ (pend : List Nat) (f : Nat),
      loadAll ⟨[], pend, f⟩ ks = ⟨[], pend ++ ks, f⟩ := by
  induction ks with
  | nil => intro pend f; simp [loadAll]
  | cons k rest ih =>
    intro pend f
    show loadAll (load ⟨[], pend, f⟩ k) rest = _
    have hld : load ⟨[], pend, f⟩ k = ⟨[], pend ++ [k], f⟩ := rfl
    rw [hld, ih]
    simp

/-- Looking a present key up in the batched result table finds its value. -/
theorem loader_find_map_key (db : Nat → Option Nat) (k : Nat) :
    ∀ l : List Nat, k ∈ l →
      (l.map (fun j => (j, db j))).find? (fun p => p.1 = k)
        = some (k, db k) := by
  intro l
  induction l with
  | nil => intro h; cases h
  | cons a rest ih =>
    intro h
    by_cases hak : a = k
    · subst hak
      rw [List.map_cons, List.find?_cons_of_pos]
      simp
    · have hkr : k ∈ rest := by
        cases h with
        | head => exact absurd rfl hak
        | tail _ h' => exact h'
      rw [List.map_cons, List.find?_cons_of_neg]
      · exact ih hkr
      · simp [hak]

/--
C9: for every multiset of load calls issued during the synchronous portion
of one request, exactly one batched fetch is issued for the whole batch (50
distinct keys cause one lookup, not 50); every requested key — duplicates
included — resolves to the one batched value for it; a key with no matching
row resolves to the explicit not-found value rather than an error; a key
already resolved in the request is served from the per-request cache without
enqueueing anything, and flushing after such a cache hit issues no new
query.
-/
theorem c9_loader_batches_once (db : Nat → Option Nat) (ks : List Nat)
    (k : Nat) (hne : ks ≠ []) :
    (dispatch db (loadAll freshLoader ks)).fetches = 1
    ∧ (k ∈ ks → cached (dispatch db (loadAll freshLoader ks)) k = some (db k))
    ∧ (k ∈ ks → db k = none →
        cached (dispatch db (loadAll freshLoader ks)) k = some none)
    ∧ (∀ (s : LoaderState) (v : Option Nat), cached s k = some v →
        load s k = s)
    ∧ (∀ (s : LoaderState) (v : Option Nat), cached s k = some v →
        s.pending = [] → dispatch db (load s k) = s) := by
  have hload : loadAll freshLoader ks = ⟨[], ks, 0⟩ := by
    have h := loader_loadAll_empty_cache ks [] 0
    simpa [freshLoader] using h
  have hcached : k ∈ ks → cached (dispatch db (loadAll freshLoader ks)) k
      = some (db k) := by
    intro hk
    rw [hload]
    cases hks : ks with
    | nil => rw [hks] at hk; cases hk
    | cons a rest =>
      subst hks
      show cached ⟨[] ++ ((a :: rest).dedup.map fun j => (j, db j)), [], 1⟩ k
        = some (db k)
      unfold cached
      rw [List.nil_append,
        loader_find_map_key db k _ (List.mem_dedup.mpr hk)]
  refine ⟨?_, hcached, ?_, ?_, ?_⟩
  · rw [hload]
    cases ks with
    | nil => exact absurd rfl hne
    | cons a rest => rfl
  · intro hk hnone
    rw [hcached hk, hnone]
  · intro s v h
    unfold load
    rw [h]
  · intro s v h hpend
    have hld : load s k = s := by
      unfold load
      rw [h]
    rw [hld]
    unfold dispatch
    rw [hpend]

/--
C9 witness: 50 distinct keys loaded in one request issue exactly one batched
fetch, and key 60 (no matching row) resolves to the explicit not-found
value.
-/
theorem c9_loader_batches_once_witness :
    (dispatch (fun j => if j < 50 then some (j + 100) else none)
        (loadAll freshLoader (List.range 50 ++ [60]))).fetches = 1
    ∧ cached (dispatch (fun j => if j < 50 then some (j + 100) else none)
        (loadAll freshLoader (List.range 50 ++ [60]))) 60 = some none :=
  have h := c9_loader_batches_once
    (fun j => if j < 50 then some (j + 100) else none)
    (List.range 50 ++ [60]) 60 (by decide)
  ⟨h.1, h.2.2.1 (by decide) rfl⟩
